import Mathlib

/-!
# Okta credential backend: login and renewal (`builtin/credential/okta/path_login.go`)

A shallow embedding of the three request handlers of `path_login.go`
(`pathLoginAliasLookahead`, `pathLogin`, `pathLoginRenew`) and of `getConfig`,
followed by theorems about them.

Modelling conventions.

* A Go `(*logical.Response, error)` return is `Outcome.ret resp err` with both
  components optional (`none` is Go `nil`); a run-time panic (nil dereference,
  failed type assertion) is `Outcome.panic`.
* `time.Duration` is `Int`. The handlers only compare and copy durations, so
  no 64-bit wrap-around can occur in them.
* Go maps are association lists; a `map[string]string` lookup of an absent key
  yields `""`, as in Go.
* The collaborators the handlers call but which are not defined in
  `path_login.go` are fields of `backend`: the credential validator `b.Login`,
  the configuration reader `b.Config`, the system view `b.System()`, and the
  library functions `Response.IsError`, `policyutil.EquivalentPolicies`,
  `framework.LeaseExtend` and `time.Duration.String`. Nothing is assumed
  about them; within one request they are functions of their arguments. The
  examples format durations with `timeDurationString`, which follows Go's
  `time.Duration.String`.
* Every handler returns, next to its outcome, the request as it is on exit and
  the list of collaborator calls it made, in order.
-/

namespace Okta

/-- A Go `error` value. -/
structure Error where
  msg : String
  deriving DecidableEq

/-- A Go `interface{}` value as stored in `Auth.InternalData`: either a
string or some value of another dynamic type. -/
inductive Value where
  | str (s : String)
  | other (tag : Nat)
  deriving DecidableEq

/-- The struct `logical.Alias`, with the one field the handlers set. -/
structure Alias where
  Name : String
  deriving DecidableEq

/-- The struct `logical.Auth` restricted to the fields `path_login.go` reads or
writes; `TTL` and `Renewable` are the fields of the embedded `LeaseOptions`.
All other fields keep their zero value in these handlers. -/
structure Auth where
  Policies : List String := []
  Metadata : List (String × String) := []
  InternalData : List (String × Value) := []
  DisplayName : String := ""
  TTL : Int := 0
  Renewable : Bool := false
  Alias : Option Okta.Alias := none
  GroupAliases : List Okta.Alias := []
  deriving DecidableEq

/-- The struct `logical.Response`: the attached grant, the response data and
the warnings. -/
structure Response where
  Auth : Option Okta.Auth := none
  Data : List (String × Value) := []
  Warnings : List String := []
  deriving DecidableEq

/-- The struct `logical.Request` as far as the handlers look at it: the prior
grant `req.Auth` (set on renewal). -/
structure Request where
  Auth : Option Okta.Auth := none
  deriving DecidableEq

/-- The parsed request fields `d.Get("username")` and `d.Get("password")`; both
are declared `TypeString` in the path schema, so both are strings. -/
structure FieldData where
  username : String
  password : String
  deriving DecidableEq

/-- The struct `ConfigEntry`, with the two lease fields used here. -/
structure ConfigEntry where
  TTL : Int
  MaxTTL : Int
  deriving DecidableEq

/-- The interface `logical.SystemView`, with the two methods used here. -/
structure SystemView where
  DefaultLeaseTTL : Int
  MaxLeaseTTL : Int
  deriving DecidableEq

/-- The four results of `b.Login`. -/
structure LoginResult where
  policies : List String
  resp : Option Response
  groupNames : List String
  err : Option Error
  deriving DecidableEq

/-- What the operation returned by `framework.LeaseExtend` hands back: its
`(resp, err)` pair, the request after the call (the operation receives the
request by pointer), and whether `resp.Auth` is the very object `req.Auth`
points to, in which case a later write through `resp.Auth` is a write to the
request's grant as well. -/
structure LeaseExtendResult where
  resp : Option Response
  err : Option Error
  req : Request
  sameAuth : Bool
  deriving DecidableEq

/-- A call to a collaborator. -/
inductive Call where
  | Login (username password : String)
  | Config
  | EquivalentPolicies (a b : List String)
  | LeaseExtend (ttl maxTTL : Int)
  deriving DecidableEq

/-- The result of a Go function returning `(*logical.Response, error)`. -/
inductive Outcome where
  | ret (resp : Option Response) (err : Option Error)
  | panic
  deriving DecidableEq

/-- One run of a handler: what it returned, the request on exit, and the
collaborator calls it made. -/
structure Exec where
  out : Outcome
  req : Request
  calls : List Call
  deriving DecidableEq

/-- The receiver `b *backend` together with the library functions the handlers
use. `Login` only reads the request. -/
structure backend where
  Login : Request → String → String → LoginResult
  Config : Request → Option ConfigEntry × Option Error
  System : SystemView
  IsError : Response → Bool
  EquivalentPolicies : List String → List String → Bool
  LeaseExtend : Int → Int → SystemView → Request → FieldData → LeaseExtendResult
  durationString : Int → String

/-- The Go standard library `sort.Strings`: the slice rearranged into ascending
order of its strings. -/
def sortStrings (xs : List String) : List String :=
  xs.insertionSort (· ≤ ·)

/-- The Go standard library `strings.Join`. -/
def stringsJoin (xs : List String) (sep : String) : String :=
  sep.intercalate xs

/-- The Go standard library `fmtFrac` of package `time`: the last `prec`
decimal digits of `v` written in front of `buf` behind a decimal point,
trailing zeros (and then the point) left out, together with `v / 10^prec`. -/
def fmtFrac : Nat → Nat → Bool → String → String × Nat
  | 0, v, print, buf => (if print then "." ++ buf else buf, v)
  | prec + 1, v, print, buf =>
    let digit := v % 10
    let print := print || decide (digit ≠ 0)
    fmtFrac prec (v / 10) print (if print then toString digit ++ buf else buf)

/-- The Go standard library `fmtInt` of package `time`: `v` in decimal. -/
def fmtInt (v : Nat) : String := toString v

/-- The Go standard library method `time.Duration.String` on a duration in
nanoseconds: `72h3m0.5s`, `1.5ms`, `0s`. -/
def timeDurationString (d : Int) : String :=
  let u := d.natAbs
  let neg := d < 0
  let body : String :=
    if u < 1000000000 then
      if u = 0 then "0s"
      else if u < 1000 then
        let t := fmtFrac 0 u false "ns"
        fmtInt t.2 ++ t.1
      else if u < 1000000 then
        let t := fmtFrac 3 u false "µs"
        fmtInt t.2 ++ t.1
      else
        let t := fmtFrac 6 u false "ms"
        fmtInt t.2 ++ t.1
    else
      let t := fmtFrac 9 u false "s"
      let buf := fmtInt (t.2 % 60) ++ t.1
      let u := t.2 / 60
      if u > 0 then
        let buf := fmtInt (u % 60) ++ "m" ++ buf
        let u := u / 60
        if u > 0 then fmtInt u ++ "h" ++ buf else buf
      else buf
  if neg then "-" ++ body else body

/-- The path pattern under which `pathLogin` and `pathLoginAliasLookahead` are
registered (line 17), `login/(?P<username>.+)`, matched against a whole request
path: the capture `username` when the path is `login/` followed by one or more
characters other than a line feed, and no match otherwise. -/
def loginPatternUsername (path : String) : Option String :=
  match path.data with
  | 'l' :: 'o' :: 'g' :: 'i' :: 'n' :: '/' :: rest =>
    if !rest.isEmpty && !rest.contains (Char.ofNat 10) then some (String.mk rest) else none
  | _ => none

/-- Indexing a `map[string]string`: the zero value `""` for an absent key. -/
def mapGet (m : List (String × String)) (k : String) : String :=
  (m.lookup k).getD ""

/-- The method `Response.AddWarning`. -/
def Response.AddWarning (r : Response) (w : String) : Response :=
  { r with Warnings := r.Warnings ++ [w] }

/-- The warning text `fmt.Sprintf("Effective TTL of '%s' exceeded the effective
max_ttl of '%s'; TTL value is capped accordingly", ttl, maxTTL)`. -/
def cappedWarning (b : backend) (ttl maxTTL : Int) : String :=
  "Effective TTL of '" ++ b.durationString ttl ++ "' exceeded the effective max_ttl of '"
    ++ b.durationString maxTTL ++ "'; TTL value is capped accordingly"

/-- The method `getConfig` (lines 162-173), returning Go's `(cfg, err)` pair. -/
def backend.getConfig (b : backend) (req : Request) : Option ConfigEntry × Option Error :=
  match b.Config req with
  | (_, some err) => (none, some err)
  | (none, none) => (none, some ⟨"Okta backend not configured"⟩)
  | (some cfg, none) => (some cfg, none)

/-- The handler `pathLoginAliasLookahead` (lines 40-53). -/
def backend.pathLoginAliasLookahead (_b : backend) (req : Request) (d : FieldData) : Exec :=
  let username := d.username
  if username = "" then
    ⟨.ret none (some ⟨"missing username"⟩), req, []⟩
  else
    ⟨.ret (some { Auth := some { Alias := some ⟨username⟩ } }) none, req, []⟩

/-- The TTL steps of `pathLogin` (lines 99-112) on the response carrying the
fresh grant `auth`: default when zero, then the cap guarded by `cfg.MaxTTL > 0`
with its warning. -/
def loginTTL (b : backend) (cfg : ConfigEntry) (resp : Response) (auth : Auth) : Response × Auth :=
  let auth := if auth.TTL = 0 then { auth with TTL := b.System.DefaultLeaseTTL } else auth
  if cfg.MaxTTL > 0 then
    let maxTTL := cfg.MaxTTL
    let maxTTL := if maxTTL > b.System.MaxLeaseTTL then b.System.MaxLeaseTTL else maxTTL
    if auth.TTL > maxTTL then
      let auth := { auth with TTL := maxTTL }
      (resp.AddWarning (cappedWarning b auth.TTL maxTTL), auth)
    else (resp, auth)
  else (resp, auth)

/-- The group-alias loop of `pathLogin` (lines 114-121): empty names are
skipped, every other name is appended as an alias. -/
def loginGroupAliases (groupNames : List String) (auth : Auth) : Auth :=
  groupNames.foldl
    (fun a groupName =>
      if groupName = "" then a
      else { a with GroupAliases := a.GroupAliases ++ [⟨groupName⟩] })
    auth

/-- The handler `pathLogin` (lines 55-124). -/
def backend.pathLogin (b : backend) (req : Request) (d : FieldData) : Exec :=
  let username := d.username
  let password := d.password
  let r := b.Login req username password
  let calls := [Call.Login username password]
  match r.err with
  | some err => ⟨.ret none (some err), req, calls⟩
  | none =>
    let logicalError := match r.resp with
      | some resp => b.IsError resp
      | none => false
    if logicalError then ⟨.ret r.resp none, req, calls⟩
    else
      let resp : Response := r.resp.getD {}
      let policies := sortStrings r.policies
      let calls := calls ++ [Call.Config]
      match b.getConfig req with
      | (_, some err) => ⟨.ret none (some err), req, calls⟩
      | (none, none) => ⟨.panic, req, calls⟩
      | (some cfg, none) =>
        let auth : Auth :=
          { Policies := policies
            Metadata := [("username", username), ("policies", stringsJoin policies ",")]
            InternalData := [("password", Value.str password)]
            DisplayName := username
            TTL := cfg.TTL
            Renewable := true
            Alias := some ⟨username⟩ }
        let t := loginTTL b cfg resp auth
        let auth := loginGroupAliases r.groupNames t.2
        ⟨.ret (some { t.1 with Auth := some auth }) none, req, calls⟩

/-- The group-alias loop of `pathLoginRenew` (lines 152-156): every name is
appended as an alias. -/
def renewGroupAliases (groupNames : List String) (auth : Auth) : Auth :=
  groupNames.foldl
    (fun a groupName => { a with GroupAliases := a.GroupAliases ++ [⟨groupName⟩] })
    auth

/-- The handler `pathLoginRenew` (lines 126-160). -/
def backend.pathLoginRenew (b : backend) (req : Request) (d : FieldData) : Exec :=
  match req.Auth with
  | none => ⟨.panic, req, []⟩
  | some prior =>
    let username := mapGet prior.Metadata "username"
    match prior.InternalData.lookup "password" with
    | some (Value.str password) =>
      let r := b.Login req username password
      let calls := [Call.Login username password]
      if r.policies.length = 0 then ⟨.ret r.resp r.err, req, calls⟩
      else
        let calls := calls ++ [Call.EquivalentPolicies r.policies prior.Policies]
        if !b.EquivalentPolicies r.policies prior.Policies then
          ⟨.ret none (some ⟨"policies have changed, not renewing"⟩), req, calls⟩
        else
          let calls := calls ++ [Call.Config]
          match b.getConfig req with
          | (_, some err) => ⟨.ret none (some err), req, calls⟩
          | (none, none) => ⟨.panic, req, calls⟩
          | (some cfg, none) =>
            let calls := calls ++ [Call.LeaseExtend cfg.TTL cfg.MaxTTL]
            let e := b.LeaseExtend cfg.TTL cfg.MaxTTL b.System req d
            match e.err with
            | some err => ⟨.ret none (some err), e.req, calls⟩
            | none =>
              match e.resp with
              | none => ⟨.panic, e.req, calls⟩
              | some resp =>
                match resp.Auth with
                | none => ⟨.panic, e.req, calls⟩
                | some auth =>
                  let auth := { auth with GroupAliases := [] }
                  let auth := renewGroupAliases r.groupNames auth
                  let req := if e.sameAuth then { e.req with Auth := some auth } else e.req
                  ⟨.ret (some { resp with Auth := some auth }) none, req, calls⟩
    | _ => ⟨.panic, req, []⟩

/-- The grant attached to the response a handler returned, if any. -/
def Exec.auth (e : Exec) : Option Auth :=
  match e.out with
  | .ret (some resp) _ => resp.Auth
  | _ => none


/-- The duration `time.Hour`, in nanoseconds. -/
def Hour : Int := 3600000000000

/-! ## Example collaborators, used to instantiate the theorems -/

/-- An example of `Response.IsError`: the response data is the single entry
`"error"`. -/
def exampleIsError (resp : Response) : Bool :=
  decide (resp.Data.length = 1) && (resp.Data.lookup "error").isSome

/-- An example of `policyutil.EquivalentPolicies`: the two lists hold the same
names, whatever the order and the repetitions. -/
def exampleEquivalentPolicies (a b : List String) : Bool :=
  a.all (fun x => b.contains x) && b.all (fun x => a.contains x)

/-- An example of `framework.LeaseExtend`: the grant of the request gets the
configured TTL and is handed back in the response. -/
def exampleLeaseExtend (ttl _maxTTL : Int) (_sys : SystemView) (req : Request) (_d : FieldData) :
    LeaseExtendResult :=
  match req.Auth with
  | some a =>
    ⟨some { Auth := some { a with TTL := ttl } }, none, { req with Auth := some { a with TTL := ttl } },
      true⟩
  | none => ⟨none, some ⟨"no lease options"⟩, req, false⟩

/-- An example backend: the validator answers `r` to every credential, the
configuration store answers `cfg`, the system view is `sys`. -/
def exampleBackend (r : LoginResult) (cfg : Option ConfigEntry × Option Error) (sys : SystemView) :
    backend :=
  { Login := fun _ _ _ => r
    Config := fun _ => cfg
    System := sys
    IsError := exampleIsError
    EquivalentPolicies := exampleEquivalentPolicies
    LeaseExtend := exampleLeaseExtend
    durationString := timeDurationString }

/-- An example system view: default lease 768h, maximum lease 24h. -/
def exampleSystem : SystemView := ⟨768 * Hour, 24 * Hour⟩

/-- The grant a login of `alice` with password `p` and policies `a`, `b`
leaves behind, as the request of a later renewal. -/
def exampleRenewRequest : Request :=
  { Auth := some
      { Policies := ["a", "b"]
        Metadata := [("username", "alice"), ("policies", "a,b")]
        InternalData := [("password", Value.str "p")]
        DisplayName := "alice"
        TTL := Hour
        Renewable := true
        Alias := some ⟨"alice"⟩
        GroupAliases := [⟨"team-x"⟩] } }

/-- The login fields of the examples. -/
def exampleFields : FieldData := ⟨"alice", "p"⟩

/-- A renewal whose revalidation now yields the policy `c` instead of `a`, `b`. -/
def driftBackend : backend :=
  exampleBackend ⟨["c"], none, ["team-x"], none⟩ (some ⟨Hour, 0⟩, none) exampleSystem

/-- A renewal whose revalidation reports an internal error next to the policies
`b`, `a`. -/
def erroringBackend : backend :=
  exampleBackend ⟨["b", "a"], none, ["team-x"], some ⟨"okta: connection reset"⟩⟩
    (some ⟨Hour, 0⟩, none) exampleSystem

/-- A renewal whose revalidation yields no policy and an error response. -/
def denyingBackend : backend :=
  exampleBackend ⟨[], some { Data := [("error", Value.str "user is not a member of any authorized policy")] },
    [], none⟩ (some ⟨Hour, 0⟩, none) exampleSystem

/-- A login accepted with the policies `b`, `a` and the group `team-x`, under
a configured TTL of 1h and no configured maximum. -/
def scenarioBackend : backend :=
  exampleBackend ⟨["b", "a"], none, ["team-x"], none⟩ (some ⟨Hour, 0⟩, none) exampleSystem

/-- A login accepted under a configured TTL of 100h and no configured maximum,
the system maximum being 24h. -/
def uncappedBackend : backend :=
  exampleBackend ⟨["b", "a"], none, ["team-x"], none⟩ (some ⟨100 * Hour, 0⟩, none) exampleSystem

/-- A login accepted under no configured TTL and a configured maximum of 2h. -/
def cappedBackend : backend :=
  exampleBackend ⟨["b", "a"], none, ["team-x"], none⟩ (some ⟨0, 2 * Hour⟩, none) exampleSystem

/-- A login accepted under a configured TTL of -1h. -/
def negativeTTLBackend : backend :=
  exampleBackend ⟨["b", "a"], none, ["team-x"], none⟩ (some ⟨-Hour, 0⟩, none) exampleSystem

/-- A validator that returns the group names `""`, `eng`, `ops` next to the
policies `a`, `b`. -/
def groupsBackend : backend :=
  exampleBackend ⟨["a", "b"], none, ["", "eng", "ops"], none⟩ (some ⟨Hour, 0⟩, none) exampleSystem

/-- A renewal whose revalidation yields the policies `a`, `b` of the prior grant
and the group names `""`, `eng`. -/
def emptyGroupBackend : backend :=
  exampleBackend ⟨["a", "b"], none, ["", "eng"], none⟩ (some ⟨Hour, 0⟩, none) exampleSystem

/-- A renewal whose revalidation yields the policies `b`, `a` of the prior grant
and the group `team-y`. -/
def renewingBackend : backend :=
  exampleBackend ⟨["b", "a"], none, ["team-y"], none⟩ (some ⟨Hour, 0⟩, none) exampleSystem

/-- The request `exampleRenewRequest` with other group aliases on its grant. -/
def otherGroupsRenewRequest : Request :=
  { Auth := some
      { Policies := ["a", "b"]
        Metadata := [("username", "alice"), ("policies", "a,b")]
        InternalData := [("password", Value.str "p")]
        DisplayName := "alice"
        TTL := Hour
        Renewable := true
        Alias := some ⟨"alice"⟩
        GroupAliases := [⟨"old"⟩, ⟨"older"⟩] } }

/-- A backend whose configuration store holds no entry. -/
def unconfiguredBackend : backend :=
  exampleBackend ⟨["b", "a"], none, ["team-x"], none⟩ (none, none) exampleSystem

/-- A validator that returns the policy `a` twice. -/
def duplicateBackend : backend :=
  exampleBackend ⟨["a", "a"], none, ["team-x"], none⟩ (some ⟨Hour, 0⟩, none) exampleSystem

/-- The backend `scenarioBackend` with the validator's policies in the other
order, `a`, `b`. -/
def permutedBackend : backend :=
  exampleBackend ⟨["a", "b"], none, ["team-x"], none⟩ (some ⟨Hour, 0⟩, none) exampleSystem

/-- Login fields with an empty username. -/
def emptyUsernameFields : FieldData := ⟨"", "p"⟩

/-! ## Auxiliary facts about the loops and the TTL steps -/

theorem loginGroupAliases_eq (groupNames : List String) (auth : Auth) :
    loginGroupAliases groupNames auth =
      { auth with
        GroupAliases := auth.GroupAliases ++ (groupNames.filter (fun g => g ≠ "")).map Alias.mk } := by
  induction groupNames generalizing auth with
  | nil => simp [loginGroupAliases]
  | cons g gs ih =>
    have step : loginGroupAliases (g :: gs) auth =
        loginGroupAliases gs
          (if g = "" then auth else { auth with GroupAliases := auth.GroupAliases ++ [⟨g⟩] }) := by
      simp [loginGroupAliases]
    rw [step, ih]
    by_cases hg : g = "" <;> simp [hg]

theorem renewGroupAliases_eq (groupNames : List String) (auth : Auth) :
    renewGroupAliases groupNames auth =
      { auth with GroupAliases := auth.GroupAliases ++ groupNames.map Alias.mk } := by
  induction groupNames generalizing auth with
  | nil => simp [renewGroupAliases]
  | cons g gs ih =>
    have step : renewGroupAliases (g :: gs) auth =
        renewGroupAliases gs { auth with GroupAliases := auth.GroupAliases ++ [⟨g⟩] } := by
      simp [renewGroupAliases]
    rw [step, ih]
    simp

/-- The TTL that lines 99-112 leave in the grant, as a function of the
configured TTL, the configured maximum and the system view. -/
theorem loginTTL_snd (b : backend) (cfg : ConfigEntry) (resp : Response) (auth : Auth) :
    (loginTTL b cfg resp auth).2 =
      { auth with
        TTL :=
          if cfg.MaxTTL > 0 ∧
              (if auth.TTL = 0 then b.System.DefaultLeaseTTL else auth.TTL) >
                min cfg.MaxTTL b.System.MaxLeaseTTL then
            min cfg.MaxTTL b.System.MaxLeaseTTL
          else if auth.TTL = 0 then b.System.DefaultLeaseTTL else auth.TTL } := by
  have hmin : (if cfg.MaxTTL > b.System.MaxLeaseTTL then b.System.MaxLeaseTTL else cfg.MaxTTL)
      = min cfg.MaxTTL b.System.MaxLeaseTTL := by
    by_cases h : cfg.MaxTTL > b.System.MaxLeaseTTL
    · rw [if_pos h, min_eq_right (le_of_lt h)]
    · rw [if_neg h, min_eq_left (not_lt.mp h)]
  unfold loginTTL
  simp only [hmin]
  by_cases h0 : auth.TTL = 0 <;> by_cases hm : cfg.MaxTTL > 0 <;>
    by_cases hc : b.System.DefaultLeaseTTL > min cfg.MaxTTL b.System.MaxLeaseTTL <;>
    by_cases hc2 : auth.TTL > min cfg.MaxTTL b.System.MaxLeaseTTL <;>
    simp [h0, hm, hc, hc2]

/-- The run of `pathLogin` when the validator accepts the credentials and a
configuration is present, written out. -/
theorem pathLogin_accepted (b : backend) (req : Request) (d : FieldData) (cfg : ConfigEntry)
    (hErr : (b.Login req d.username d.password).err = none)
    (hResp : ∀ resp, (b.Login req d.username d.password).resp = some resp → b.IsError resp = false)
    (hCfg : b.Config req = (some cfg, none)) :
    b.pathLogin req d =
      ⟨.ret (some
          { (loginTTL b cfg ((b.Login req d.username d.password).resp.getD {})
                { Policies := sortStrings (b.Login req d.username d.password).policies
                  Metadata := [("username", d.username),
                    ("policies", stringsJoin (sortStrings (b.Login req d.username d.password).policies) ",")]
                  InternalData := [("password", Value.str d.password)]
                  DisplayName := d.username
                  TTL := cfg.TTL
                  Renewable := true
                  Alias := some ⟨d.username⟩ }).1 with
            Auth := some
              { Policies := sortStrings (b.Login req d.username d.password).policies
                Metadata := [("username", d.username),
                  ("policies", stringsJoin (sortStrings (b.Login req d.username d.password).policies) ",")]
                InternalData := [("password", Value.str d.password)]
                DisplayName := d.username
                TTL :=
                  if cfg.MaxTTL > 0 ∧
                      (if cfg.TTL = 0 then b.System.DefaultLeaseTTL else cfg.TTL) >
                        min cfg.MaxTTL b.System.MaxLeaseTTL then
                    min cfg.MaxTTL b.System.MaxLeaseTTL
                  else if cfg.TTL = 0 then b.System.DefaultLeaseTTL else cfg.TTL
                Renewable := true
                Alias := some ⟨d.username⟩
                GroupAliases :=
                  ((b.Login req d.username d.password).groupNames.filter (fun g => g ≠ "")).map
                    Alias.mk } })
        none, req, [Call.Login d.username d.password, Call.Config]⟩ := by
  have hle : (match (b.Login req d.username d.password).resp with
      | some resp => b.IsError resp
      | none => false) = false := by
    cases h : (b.Login req d.username d.password).resp with
    | none => rfl
    | some resp => simpa using hResp resp h
  have hg : b.getConfig req = (some cfg, none) := by
    simp [backend.getConfig, hCfg]
  unfold backend.pathLogin
  simp only [hErr, hle, hg, loginGroupAliases_eq, loginTTL_snd]
  simp

/-! ## Renewal: refusal, pass-through and the unchecked error -/

/-- C1. Renewal refusal under drift: when the prior grant carries its password
and the revalidation returns a non-empty policy list that
`policyutil.EquivalentPolicies` does not accept against the prior grant's
policies, `pathLoginRenew` returns no response and the error "policies have
changed, not renewing"; the request, and with it the prior grant, is as it was
on entry, and neither the configuration nor `LeaseExtend` was called. -/
theorem pathLoginRenew_refuses_on_drift (b : backend) (req : Request) (d : FieldData)
    (prior : Auth) (password : String)
    (hAuth : req.Auth = some prior)
    (hPw : prior.InternalData.lookup "password" = some (Value.str password))
    (hNonempty : (b.Login req (mapGet prior.Metadata "username") password).policies ≠ [])
    (hDrift : b.EquivalentPolicies
      (b.Login req (mapGet prior.Metadata "username") password).policies prior.Policies = false) :
    (b.pathLoginRenew req d).out
        = Outcome.ret none (some ⟨"policies have changed, not renewing"⟩) ∧
      (b.pathLoginRenew req d).req = req ∧
      (b.pathLoginRenew req d).req.Auth = some prior ∧
      (b.pathLoginRenew req d).calls
        = [Call.Login (mapGet prior.Metadata "username") password,
            Call.EquivalentPolicies
              (b.Login req (mapGet prior.Metadata "username") password).policies prior.Policies] ∧
      Call.Config ∉ (b.pathLoginRenew req d).calls ∧
      ∀ ttl maxTTL, Call.LeaseExtend ttl maxTTL ∉ (b.pathLoginRenew req d).calls := by
  have hlen : ¬ (b.Login req (mapGet prior.Metadata "username") password).policies.length = 0 := by
    simpa [List.length_eq_zero] using hNonempty
  have hrun : b.pathLoginRenew req d =
      ⟨Outcome.ret none (some ⟨"policies have changed, not renewing"⟩), req,
        [Call.Login (mapGet prior.Metadata "username") password,
          Call.EquivalentPolicies
            (b.Login req (mapGet prior.Metadata "username") password).policies prior.Policies]⟩ := by
    unfold backend.pathLoginRenew
    simp only [hAuth, hPw, hlen, hDrift]
    simp
  rw [hrun]
  simp [hAuth]

/-- Witness of C1 on `driftBackend`: the prior grant holds `a`, `b`, the
revalidation yields `c`. -/
theorem pathLoginRenew_refuses_on_drift_witness :
    (driftBackend.pathLoginRenew exampleRenewRequest exampleFields).out
        = Outcome.ret none (some ⟨"policies have changed, not renewing"⟩) ∧
      (driftBackend.pathLoginRenew exampleRenewRequest exampleFields).req = exampleRenewRequest :=
  have h := pathLoginRenew_refuses_on_drift driftBackend exampleRenewRequest exampleFields
    { Policies := ["a", "b"]
      Metadata := [("username", "alice"), ("policies", "a,b")]
      InternalData := [("password", Value.str "p")]
      DisplayName := "alice"
      TTL := Hour
      Renewable := true
      Alias := some ⟨"alice"⟩
      GroupAliases := [⟨"team-x"⟩] }
    "p" rfl (by decide) (by decide) (by decide)
  ⟨h.1, h.2.1⟩

/-- C2. The internal error of the revalidation is not checked when policies
come with it: on `erroringBackend` the validator returns the error "okta:
connection reset" together with the policies `b`, `a`; `pathLoginRenew`
compares them with the prior grant, extends the lease and returns a response
carrying a grant with a nil error. -/
theorem pathLoginRenew_drops_internal_error :
    (erroringBackend.Login exampleRenewRequest "alice" "p").err
        = some ⟨"okta: connection reset"⟩ ∧
      (erroringBackend.pathLoginRenew exampleRenewRequest exampleFields).out
        = Outcome.ret
            (some
              { Auth := some
                  { Policies := ["a", "b"]
                    Metadata := [("username", "alice"), ("policies", "a,b")]
                    InternalData := [("password", Value.str "p")]
                    DisplayName := "alice"
                    TTL := Hour
                    Renewable := true
                    Alias := some ⟨"alice"⟩
                    GroupAliases := [⟨"team-x"⟩] } })
            none ∧
      (erroringBackend.pathLoginRenew exampleRenewRequest exampleFields).calls
        = [Call.Login "alice" "p", Call.EquivalentPolicies ["b", "a"] ["a", "b"], Call.Config,
            Call.LeaseExtend Hour 0] := by
  decide

/-- C8. Renewal short-circuit: when the prior grant carries its password and
the revalidation returns an empty policy list, `pathLoginRenew` returns exactly
the response and the error of the revalidation; the validator is the only
collaborator called (no equivalence comparison, no configuration read, no
lease extension) and the request is as it was on entry. -/
theorem pathLoginRenew_short_circuit (b : backend) (req : Request) (d : FieldData)
    (prior : Auth) (password : String)
    (hAuth : req.Auth = some prior)
    (hPw : prior.InternalData.lookup "password" = some (Value.str password))
    (hEmpty : (b.Login req (mapGet prior.Metadata "username") password).policies = []) :
    (b.pathLoginRenew req d).out
        = Outcome.ret (b.Login req (mapGet prior.Metadata "username") password).resp
            (b.Login req (mapGet prior.Metadata "username") password).err ∧
      (b.pathLoginRenew req d).calls = [Call.Login (mapGet prior.Metadata "username") password] ∧
      (∀ x y, Call.EquivalentPolicies x y ∉ (b.pathLoginRenew req d).calls) ∧
      Call.Config ∉ (b.pathLoginRenew req d).calls ∧
      (∀ ttl maxTTL, Call.LeaseExtend ttl maxTTL ∉ (b.pathLoginRenew req d).calls) ∧
      (b.pathLoginRenew req d).req = req := by
  have hrun : b.pathLoginRenew req d =
      ⟨Outcome.ret (b.Login req (mapGet prior.Metadata "username") password).resp
          (b.Login req (mapGet prior.Metadata "username") password).err, req,
        [Call.Login (mapGet prior.Metadata "username") password]⟩ := by
    unfold backend.pathLoginRenew
    simp only [hAuth, hPw, hEmpty]
    simp
  rw [hrun]
  simp

/-- Witness of C8 on `denyingBackend`: the revalidation yields no policy and an
error response, which is what the renewal returns. -/
theorem pathLoginRenew_short_circuit_witness :
    (denyingBackend.Login exampleRenewRequest "alice" "p").policies = [] ∧
      (denyingBackend.pathLoginRenew exampleRenewRequest exampleFields).out
        = Outcome.ret
            (some { Data := [("error", Value.str "user is not a member of any authorized policy")] })
            none ∧
      (denyingBackend.pathLoginRenew exampleRenewRequest exampleFields).calls
        = [Call.Login "alice" "p"] :=
  have h := pathLoginRenew_short_circuit denyingBackend exampleRenewRequest exampleFields
    { Policies := ["a", "b"]
      Metadata := [("username", "alice"), ("policies", "a,b")]
      InternalData := [("password", Value.str "p")]
      DisplayName := "alice"
      TTL := Hour
      Renewable := true
      Alias := some ⟨"alice"⟩
      GroupAliases := [⟨"team-x"⟩] }
    "p" rfl (by decide) (by decide)
  ⟨by decide, h.1, h.2.1⟩

/-! ## Login: failure propagation -/

/-- C7. Login failure propagation: an internal error of the validator makes
`pathLogin` return no response and that error; an error response without an
internal error makes it return that very response and a nil error. In both
cases the validator is the only collaborator called (the configuration is not
read) and nothing is attached to the response. -/
theorem pathLogin_failure_propagation (b : backend) (req : Request) (d : FieldData) :
    (∀ err, (b.Login req d.username d.password).err = some err →
        b.pathLogin req d
          = ⟨Outcome.ret none (some err), req, [Call.Login d.username d.password]⟩) ∧
      (∀ resp, (b.Login req d.username d.password).err = none →
        (b.Login req d.username d.password).resp = some resp → b.IsError resp = true →
        b.pathLogin req d
          = ⟨Outcome.ret (some resp) none, req, [Call.Login d.username d.password]⟩) := by
  constructor
  · intro err hErr
    unfold backend.pathLogin
    simp only [hErr]
  · intro resp hErr hSome hIs
    unfold backend.pathLogin
    simp only [hErr, hSome, hIs]
    simp

/-- Witness of C7: `erroringBackend` fails internally, `denyingBackend` answers
with an error response. -/
theorem pathLogin_failure_propagation_witness :
    erroringBackend.pathLogin {} exampleFields
        = ⟨Outcome.ret none (some ⟨"okta: connection reset"⟩), {}, [Call.Login "alice" "p"]⟩ ∧
      denyingBackend.pathLogin {} exampleFields
        = ⟨Outcome.ret
            (some { Data := [("error", Value.str "user is not a member of any authorized policy")] })
            none, {}, [Call.Login "alice" "p"]⟩ :=
  ⟨(pathLogin_failure_propagation erroringBackend {} exampleFields).1 _ (by decide),
    (pathLogin_failure_propagation denyingBackend {} exampleFields).2 _ (by decide) (by decide)
      (by decide)⟩

/-! ## Login: the issued TTL -/

/-- C3. TTL computation at login: when the validator accepts and a
configuration is present, `pathLogin` returns a response carrying a grant whose
TTL is `min(cfg.MaxTTL, System.MaxLeaseTTL())` if `cfg.MaxTTL > 0` and the base
TTL (`cfg.TTL`, or the system default when `cfg.TTL = 0`) exceeds that
minimum, and the base TTL otherwise; in particular the system default when
`cfg.TTL = 0` and no cap applies, and 1h for `cfg.TTL = 1h`, `cfg.MaxTTL = 0`. -/
theorem pathLogin_ttl (b : backend) (req : Request) (d : FieldData) (cfg : ConfigEntry)
    (hErr : (b.Login req d.username d.password).err = none)
    (hResp : ∀ resp, (b.Login req d.username d.password).resp = some resp → b.IsError resp = false)
    (hCfg : b.Config req = (some cfg, none)) :
    ∃ resp auth, (b.pathLogin req d).out = Outcome.ret (some resp) none ∧ resp.Auth = some auth ∧
      auth.TTL =
        (if cfg.MaxTTL > 0 ∧
            (if cfg.TTL ≠ 0 then cfg.TTL else b.System.DefaultLeaseTTL) >
              min cfg.MaxTTL b.System.MaxLeaseTTL then
          min cfg.MaxTTL b.System.MaxLeaseTTL
        else if cfg.TTL ≠ 0 then cfg.TTL else b.System.DefaultLeaseTTL) ∧
      (cfg.TTL = 0 →
        ¬ (cfg.MaxTTL > 0 ∧ b.System.DefaultLeaseTTL > min cfg.MaxTTL b.System.MaxLeaseTTL) →
        auth.TTL = b.System.DefaultLeaseTTL) ∧
      (cfg.TTL = Hour → cfg.MaxTTL = 0 → auth.TTL = Hour) := by
  rw [pathLogin_accepted b req d cfg hErr hResp hCfg]
  refine ⟨_, _, rfl, rfl, ?_, ?_, ?_⟩
  · by_cases h0 : cfg.TTL = 0 <;> simp [h0]
  · intro h0 hcap
    simp only [h0, if_true]
    rw [if_neg hcap]
  · intro h1 hm
    have hne : Hour ≠ 0 := by decide
    simp [hm, hne, h1]

/-- Witness of C3 on `scenarioBackend`: configured TTL 1h, no configured
maximum. -/
theorem pathLogin_ttl_witness :
    ∃ resp auth, (scenarioBackend.pathLogin {} exampleFields).out = Outcome.ret (some resp) none ∧
      resp.Auth = some auth ∧ auth.TTL = Hour :=
  have h := pathLogin_ttl scenarioBackend {} exampleFields ⟨Hour, 0⟩ (by decide)
    (fun _ h => Option.noConfusion h) rfl
  h.elim fun resp h => h.elim fun auth h => ⟨resp, auth, h.1, h.2.1, h.2.2.2.2 rfl rfl⟩

/-- C4, as the code has it. When the validator accepts, a configuration is
present and `cfg.MaxTTL > 0`, the TTL of the issued grant is at most
`min(cfg.MaxTTL, System.MaxLeaseTTL())`, hence at most `System.MaxLeaseTTL()`. -/
theorem pathLogin_ttl_capped (b : backend) (req : Request) (d : FieldData) (cfg : ConfigEntry)
    (hErr : (b.Login req d.username d.password).err = none)
    (hResp : ∀ resp, (b.Login req d.username d.password).resp = some resp → b.IsError resp = false)
    (hCfg : b.Config req = (some cfg, none))
    (hMax : cfg.MaxTTL > 0) :
    ∃ resp auth, (b.pathLogin req d).out = Outcome.ret (some resp) none ∧ resp.Auth = some auth ∧
      auth.TTL ≤ min cfg.MaxTTL b.System.MaxLeaseTTL ∧ auth.TTL ≤ b.System.MaxLeaseTTL := by
  rw [pathLogin_accepted b req d cfg hErr hResp hCfg]
  refine ⟨_, _, rfl, rfl, ?_⟩
  have key : (if cfg.MaxTTL > 0 ∧
        (if cfg.TTL = 0 then b.System.DefaultLeaseTTL else cfg.TTL) >
          min cfg.MaxTTL b.System.MaxLeaseTTL then
        min cfg.MaxTTL b.System.MaxLeaseTTL
      else if cfg.TTL = 0 then b.System.DefaultLeaseTTL else cfg.TTL)
      ≤ min cfg.MaxTTL b.System.MaxLeaseTTL := by
    by_cases hc : (if cfg.TTL = 0 then b.System.DefaultLeaseTTL else cfg.TTL) >
        min cfg.MaxTTL b.System.MaxLeaseTTL
    · rw [if_pos ⟨hMax, hc⟩]
    · rw [if_neg (fun h => hc h.2)]
      exact not_lt.mp hc
  exact ⟨key, le_trans key (min_le_right _ _)⟩

/-- Witness of the amended C4 on `cappedBackend`: no configured TTL, configured
maximum 2h, system default 768h, system maximum 24h. -/
theorem pathLogin_ttl_capped_witness :
    cappedBackend.System.MaxLeaseTTL = 24 * Hour ∧
      ∃ resp auth, (cappedBackend.pathLogin {} exampleFields).out = Outcome.ret (some resp) none ∧
        resp.Auth = some auth ∧ auth.TTL ≤ min (2 * Hour) (24 * Hour) ∧ auth.TTL ≤ 24 * Hour :=
  ⟨rfl, pathLogin_ttl_capped cappedBackend {} exampleFields ⟨0, 2 * Hour⟩ (by decide)
    (fun _ h => Option.noConfusion h) rfl (by decide)⟩

/-- C4 fails as stated: on `uncappedBackend` (configured TTL 100h, configured
maximum 0, system maximum 24h) the login succeeds and the issued TTL is
100h, above the system maximum. -/
theorem pathLogin_ttl_exceeds_system_max :
    uncappedBackend.System.MaxLeaseTTL = 24 * Hour ∧
      ∃ resp auth, (uncappedBackend.pathLogin {} exampleFields).out
          = Outcome.ret (some resp) none ∧
        resp.Auth = some auth ∧ auth.TTL = 100 * Hour ∧
        ¬ auth.TTL ≤ uncappedBackend.System.MaxLeaseTTL := by
  refine ⟨rfl, ?_⟩
  rw [pathLogin_accepted uncappedBackend {} exampleFields ⟨100 * Hour, 0⟩ (by decide)
    (fun _ h => Option.noConfusion h) rfl]
  exact ⟨_, _, rfl, rfl, by decide, by decide⟩

/-- C5, as the code has it. When the validator accepts and a configuration is
present, the TTL of the issued grant is positive exactly when the base TTL
(`cfg.TTL`, or the system default when `cfg.TTL = 0`) is positive and, in case
`cfg.MaxTTL > 0`, the system maximum is positive. -/
theorem pathLogin_ttl_pos_iff (b : backend) (req : Request) (d : FieldData) (cfg : ConfigEntry)
    (hErr : (b.Login req d.username d.password).err = none)
    (hResp : ∀ resp, (b.Login req d.username d.password).resp = some resp → b.IsError resp = false)
    (hCfg : b.Config req = (some cfg, none)) :
    ∃ resp auth, (b.pathLogin req d).out = Outcome.ret (some resp) none ∧ resp.Auth = some auth ∧
      (0 < auth.TTL ↔
        0 < (if cfg.TTL ≠ 0 then cfg.TTL else b.System.DefaultLeaseTTL) ∧
          (cfg.MaxTTL > 0 → 0 < b.System.MaxLeaseTTL)) := by
  rw [pathLogin_accepted b req d cfg hErr hResp hCfg]
  refine ⟨_, _, rfl, rfl, ?_⟩
  simp only [min_def, gt_iff_lt, ne_eq, ite_not]
  split_ifs <;> constructor <;> intro h <;> (try constructor) <;> (try intro _) <;> omega

/-- Witness of the amended C5 on `scenarioBackend`: the base TTL is 1h and no
maximum is configured, so the issued TTL is positive. -/
theorem pathLogin_ttl_pos_iff_witness :
    ∃ resp auth, (scenarioBackend.pathLogin {} exampleFields).out = Outcome.ret (some resp) none ∧
      resp.Auth = some auth ∧ 0 < auth.TTL :=
  have h := pathLogin_ttl_pos_iff scenarioBackend {} exampleFields ⟨Hour, 0⟩ (by decide)
    (fun _ h => Option.noConfusion h) rfl
  h.elim fun resp h => h.elim fun auth h =>
    ⟨resp, auth, h.1, h.2.1, h.2.2.mpr ⟨by decide, fun hm => absurd hm (by decide)⟩⟩

/-- C5 fails as stated: on `negativeTTLBackend` (configured TTL -1h, no
configured maximum) the login succeeds and the issued TTL is -1h. -/
theorem pathLogin_ttl_not_positive :
    ∃ resp auth, (negativeTTLBackend.pathLogin {} exampleFields).out
        = Outcome.ret (some resp) none ∧
      resp.Auth = some auth ∧ auth.TTL = -Hour ∧ ¬ 0 < auth.TTL := by
  rw [pathLogin_accepted negativeTTLBackend {} exampleFields ⟨-Hour, 0⟩ (by decide)
    (fun _ h => Option.noConfusion h) rfl]
  exact ⟨_, _, rfl, rfl, by decide, by decide⟩

/-! ## Login: policies and group aliases -/

/-- C6. When the validator accepts and a configuration is present, `pathLogin`
returns a response carrying a grant whose policies are in ascending order and
are a permutation of the validator's policy list. -/
theorem pathLogin_policies_sorted_perm (b : backend) (req : Request) (d : FieldData)
    (cfg : ConfigEntry)
    (hErr : (b.Login req d.username d.password).err = none)
    (hResp : ∀ resp, (b.Login req d.username d.password).resp = some resp → b.IsError resp = false)
    (hCfg : b.Config req = (some cfg, none)) :
    ∃ resp auth, (b.pathLogin req d).out = Outcome.ret (some resp) none ∧ resp.Auth = some auth ∧
      List.Sorted (fun x y : String => x ≤ y) auth.Policies ∧
      List.Perm auth.Policies (b.Login req d.username d.password).policies := by
  rw [pathLogin_accepted b req d cfg hErr hResp hCfg]
  exact ⟨_, _, rfl, rfl, List.sorted_insertionSort _ _, List.perm_insertionSort _ _⟩

/-- Witness of C6 on `scenarioBackend`, whose validator returns `b`, `a`. -/
theorem pathLogin_policies_sorted_perm_witness :
    ∃ resp auth, (scenarioBackend.pathLogin {} exampleFields).out = Outcome.ret (some resp) none ∧
      resp.Auth = some auth ∧
      List.Sorted (fun x y : String => x ≤ y) auth.Policies ∧
      List.Perm auth.Policies ["b", "a"] :=
  pathLogin_policies_sorted_perm scenarioBackend {} exampleFields ⟨Hour, 0⟩ (by decide)
    (fun _ h => Option.noConfusion h) rfl

/-- C9. Group aliases at login: when the validator accepts and a configuration
is present, the names of the group aliases of the issued grant are the
validator's group names with the empty strings removed, in the same order; the
names `""`, `eng`, `ops` give `eng`, `ops`. -/
theorem pathLogin_group_aliases (b : backend) (req : Request) (d : FieldData) (cfg : ConfigEntry)
    (hErr : (b.Login req d.username d.password).err = none)
    (hResp : ∀ resp, (b.Login req d.username d.password).resp = some resp → b.IsError resp = false)
    (hCfg : b.Config req = (some cfg, none)) :
    ∃ resp auth, (b.pathLogin req d).out = Outcome.ret (some resp) none ∧ resp.Auth = some auth ∧
      auth.GroupAliases.map Alias.Name
        = (b.Login req d.username d.password).groupNames.filter (fun g => g ≠ "") ∧
      ((b.Login req d.username d.password).groupNames = ["", "eng", "ops"] →
        auth.GroupAliases = [⟨"eng"⟩, ⟨"ops"⟩]) := by
  rw [pathLogin_accepted b req d cfg hErr hResp hCfg]
  refine ⟨_, _, rfl, rfl, ?_, ?_⟩
  · simp [List.map_map, Function.comp_def]
  · intro h
    simp only [h]
    decide

/-- Witness of C9 on `groupsBackend`, whose validator returns the group names
`""`, `eng`, `ops`. -/
theorem pathLogin_group_aliases_witness :
    ∃ resp auth, (groupsBackend.pathLogin {} exampleFields).out = Outcome.ret (some resp) none ∧
      resp.Auth = some auth ∧ auth.GroupAliases = [⟨"eng"⟩, ⟨"ops"⟩] :=
  have h := pathLogin_group_aliases groupsBackend {} exampleFields ⟨Hour, 0⟩ (by decide)
    (fun _ h => Option.noConfusion h) rfl
  h.elim fun resp h => h.elim fun auth h => ⟨resp, auth, h.1, h.2.1, h.2.2.2 rfl⟩

/-! ## Renewal: group aliases -/

/-- C10. The renewal loop aliases empty group names: on `emptyGroupBackend` the
revalidation returns the group names `""`, `eng`, the renewal succeeds, and the
returned grant has two group aliases, the first with the empty name. -/
theorem pathLoginRenew_aliases_empty_group :
    (emptyGroupBackend.Login exampleRenewRequest "alice" "p").groupNames = ["", "eng"] ∧
      (emptyGroupBackend.pathLoginRenew exampleRenewRequest exampleFields).out
        = Outcome.ret
            (some
              { Auth := some
                  { Policies := ["a", "b"]
                    Metadata := [("username", "alice"), ("policies", "a,b")]
                    InternalData := [("password", Value.str "p")]
                    DisplayName := "alice"
                    TTL := Hour
                    Renewable := true
                    Alias := some ⟨"alice"⟩
                    GroupAliases := [⟨""⟩, ⟨"eng"⟩] } })
            none := by
  decide

/-- The run of `pathLoginRenew` when the credentials are recovered, the
revalidated policies are non-empty and equivalent to the prior ones, a
configuration is present and `LeaseExtend` returns a response with a grant,
written out. -/
theorem pathLoginRenew_extended (b : backend) (req : Request) (d : FieldData)
    (prior : Auth) (password : String) (cfg : ConfigEntry) (resp0 : Response) (auth0 : Auth)
    (hAuth : req.Auth = some prior)
    (hPw : prior.InternalData.lookup "password" = some (Value.str password))
    (hNonempty : (b.Login req (mapGet prior.Metadata "username") password).policies ≠ [])
    (hEquiv : b.EquivalentPolicies
      (b.Login req (mapGet prior.Metadata "username") password).policies prior.Policies = true)
    (hCfg : b.Config req = (some cfg, none))
    (hExtErr : (b.LeaseExtend cfg.TTL cfg.MaxTTL b.System req d).err = none)
    (hExtResp : (b.LeaseExtend cfg.TTL cfg.MaxTTL b.System req d).resp = some resp0)
    (hExtAuth : resp0.Auth = some auth0) :
    b.pathLoginRenew req d =
      ⟨Outcome.ret
          (some { resp0 with
            Auth := some { auth0 with
              GroupAliases :=
                (b.Login req (mapGet prior.Metadata "username") password).groupNames.map
                  Alias.mk } })
          none,
        if (b.LeaseExtend cfg.TTL cfg.MaxTTL b.System req d).sameAuth then
          { (b.LeaseExtend cfg.TTL cfg.MaxTTL b.System req d).req with
            Auth := some { auth0 with
              GroupAliases :=
                (b.Login req (mapGet prior.Metadata "username") password).groupNames.map
                  Alias.mk } }
        else (b.LeaseExtend cfg.TTL cfg.MaxTTL b.System req d).req,
        [Call.Login (mapGet prior.Metadata "username") password,
          Call.EquivalentPolicies
            (b.Login req (mapGet prior.Metadata "username") password).policies prior.Policies,
          Call.Config, Call.LeaseExtend cfg.TTL cfg.MaxTTL]⟩ := by
  have hlen : ¬ (b.Login req (mapGet prior.Metadata "username") password).policies.length = 0 := by
    simpa [List.length_eq_zero] using hNonempty
  have hg : b.getConfig req = (some cfg, none) := by
    simp [backend.getConfig, hCfg]
  unfold backend.pathLoginRenew
  simp only [hAuth, hPw, hlen, hEquiv, hg, hExtErr, hExtResp, hExtAuth, renewGroupAliases_eq]
  simp

/-- C11. Group aliases are replaced, not merged, at renewal: take any two
renewals that succeed (credentials recovered, revalidated policies non-empty
and equivalent to the prior ones, configuration present, `LeaseExtend`
returning a response with a grant). Each returns a grant whose group aliases
are one alias per revalidated group name, whatever aliases the prior grant or
the response of `LeaseExtend` carried; so equal revalidated group names give
equal alias lists, and an empty revalidated group list gives no alias. -/
theorem pathLoginRenew_group_aliases_replaced
    (b b2 : backend) (req req2 : Request) (d d2 : FieldData)
    (prior prior2 : Auth) (password password2 : String) (cfg cfg2 : ConfigEntry)
    (resp0 resp02 : Response) (auth0 auth02 : Auth)
    (hAuth : req.Auth = some prior)
    (hPw : prior.InternalData.lookup "password" = some (Value.str password))
    (hNonempty : (b.Login req (mapGet prior.Metadata "username") password).policies ≠ [])
    (hEquiv : b.EquivalentPolicies
      (b.Login req (mapGet prior.Metadata "username") password).policies prior.Policies = true)
    (hCfg : b.Config req = (some cfg, none))
    (hExtErr : (b.LeaseExtend cfg.TTL cfg.MaxTTL b.System req d).err = none)
    (hExtResp : (b.LeaseExtend cfg.TTL cfg.MaxTTL b.System req d).resp = some resp0)
    (hExtAuth : resp0.Auth = some auth0)
    (hAuth2 : req2.Auth = some prior2)
    (hPw2 : prior2.InternalData.lookup "password" = some (Value.str password2))
    (hNonempty2 : (b2.Login req2 (mapGet prior2.Metadata "username") password2).policies ≠ [])
    (hEquiv2 : b2.EquivalentPolicies
      (b2.Login req2 (mapGet prior2.Metadata "username") password2).policies prior2.Policies = true)
    (hCfg2 : b2.Config req2 = (some cfg2, none))
    (hExtErr2 : (b2.LeaseExtend cfg2.TTL cfg2.MaxTTL b2.System req2 d2).err = none)
    (hExtResp2 : (b2.LeaseExtend cfg2.TTL cfg2.MaxTTL b2.System req2 d2).resp = some resp02)
    (hExtAuth2 : resp02.Auth = some auth02) :
    ∃ resp auth resp2 auth2,
      (b.pathLoginRenew req d).out = Outcome.ret (some resp) none ∧ resp.Auth = some auth ∧
      (b2.pathLoginRenew req2 d2).out = Outcome.ret (some resp2) none ∧ resp2.Auth = some auth2 ∧
      auth.GroupAliases
        = (b.Login req (mapGet prior.Metadata "username") password).groupNames.map Alias.mk ∧
      auth2.GroupAliases
        = (b2.Login req2 (mapGet prior2.Metadata "username") password2).groupNames.map Alias.mk ∧
      ((b.Login req (mapGet prior.Metadata "username") password).groupNames
          = (b2.Login req2 (mapGet prior2.Metadata "username") password2).groupNames →
        auth.GroupAliases = auth2.GroupAliases) ∧
      ((b.Login req (mapGet prior.Metadata "username") password).groupNames = [] →
        auth.GroupAliases = []) := by
  rw [pathLoginRenew_extended b req d prior password cfg resp0 auth0 hAuth hPw hNonempty hEquiv hCfg
      hExtErr hExtResp hExtAuth,
    pathLoginRenew_extended b2 req2 d2 prior2 password2 cfg2 resp02 auth02 hAuth2 hPw2 hNonempty2
      hEquiv2 hCfg2 hExtErr2 hExtResp2 hExtAuth2]
  refine ⟨_, _, _, _, rfl, rfl, rfl, rfl, rfl, rfl, ?_, ?_⟩
  · intro h
    simp only [h]
  · intro h
    simp only [h, List.map_nil]

/-- Witness of C11: `renewingBackend` renews the grant of `exampleRenewRequest`
(group alias `team-x`) and that of `otherGroupsRenewRequest` (group aliases
`old`, `older`); both renewed grants carry the one alias `team-y`. -/
theorem pathLoginRenew_group_aliases_replaced_witness :
    ∃ resp auth resp2 auth2,
      (renewingBackend.pathLoginRenew exampleRenewRequest exampleFields).out
        = Outcome.ret (some resp) none ∧ resp.Auth = some auth ∧
      (renewingBackend.pathLoginRenew otherGroupsRenewRequest exampleFields).out
        = Outcome.ret (some resp2) none ∧ resp2.Auth = some auth2 ∧
      auth.GroupAliases = [⟨"team-y"⟩] ∧ auth2.GroupAliases = [⟨"team-y"⟩] :=
  have h := pathLoginRenew_group_aliases_replaced renewingBackend renewingBackend
    exampleRenewRequest otherGroupsRenewRequest exampleFields exampleFields
    { Policies := ["a", "b"]
      Metadata := [("username", "alice"), ("policies", "a,b")]
      InternalData := [("password", Value.str "p")]
      DisplayName := "alice"
      TTL := Hour
      Renewable := true
      Alias := some ⟨"alice"⟩
      GroupAliases := [⟨"team-x"⟩] }
    { Policies := ["a", "b"]
      Metadata := [("username", "alice"), ("policies", "a,b")]
      InternalData := [("password", Value.str "p")]
      DisplayName := "alice"
      TTL := Hour
      Renewable := true
      Alias := some ⟨"alice"⟩
      GroupAliases := [⟨"old"⟩, ⟨"older"⟩] }
    "p" "p" ⟨Hour, 0⟩ ⟨Hour, 0⟩ _ _ _ _
    rfl (by decide) (by decide) (by decide) rfl rfl rfl rfl
    rfl (by decide) (by decide) (by decide) rfl rfl rfl rfl
  h.elim fun resp h => h.elim fun auth h => h.elim fun resp2 h => h.elim fun auth2 h =>
    ⟨resp, auth, resp2, auth2, h.1, h.2.1, h.2.2.1, h.2.2.2.1, h.2.2.2.2.1, h.2.2.2.2.2.1⟩

/-! ## Login: the capping warning and the grant's fields -/

/-- The response that lines 99-112 leave: the capping warning is appended
exactly when the cap applies. -/
theorem loginTTL_fst (b : backend) (cfg : ConfigEntry) (resp : Response) (auth : Auth) :
    (loginTTL b cfg resp auth).1 =
      if cfg.MaxTTL > 0 ∧
          (if auth.TTL = 0 then b.System.DefaultLeaseTTL else auth.TTL) >
            min cfg.MaxTTL b.System.MaxLeaseTTL then
        resp.AddWarning
          (cappedWarning b (min cfg.MaxTTL b.System.MaxLeaseTTL)
            (min cfg.MaxTTL b.System.MaxLeaseTTL))
      else resp := by
  have hmin : (if cfg.MaxTTL > b.System.MaxLeaseTTL then b.System.MaxLeaseTTL else cfg.MaxTTL)
      = min cfg.MaxTTL b.System.MaxLeaseTTL := by
    by_cases h : cfg.MaxTTL > b.System.MaxLeaseTTL
    · rw [if_pos h, min_eq_right (le_of_lt h)]
    · rw [if_neg h, min_eq_left (not_lt.mp h)]
  unfold loginTTL
  simp only [hmin]
  by_cases h0 : auth.TTL = 0 <;> by_cases hm : cfg.MaxTTL > 0 <;>
    by_cases hc : b.System.DefaultLeaseTTL > min cfg.MaxTTL b.System.MaxLeaseTTL <;>
    by_cases hc2 : auth.TTL > min cfg.MaxTTL b.System.MaxLeaseTTL <;>
    simp [h0, hm, hc, hc2]

/-- C12. Capping warning: when the validator accepts and a configuration is
present, the warnings of the returned response are those of the validator's
response (none if it returned no response) followed by one capping warning if
`cfg.MaxTTL > 0` and the base TTL (`cfg.TTL`, or the system default when
`cfg.TTL = 0`) exceeds `min(cfg.MaxTTL, System.MaxLeaseTTL())`, and they are
unchanged otherwise (so for TTL 1h, MaxTTL 0). The warning is the text of
line 110 with that minimum, formatted as a duration, in both places. -/
theorem pathLogin_capping_warning (b : backend) (req : Request) (d : FieldData) (cfg : ConfigEntry)
    (hErr : (b.Login req d.username d.password).err = none)
    (hResp : ∀ resp, (b.Login req d.username d.password).resp = some resp → b.IsError resp = false)
    (hCfg : b.Config req = (some cfg, none)) :
    ∃ resp auth, (b.pathLogin req d).out = Outcome.ret (some resp) none ∧ resp.Auth = some auth ∧
      resp.Warnings =
        (if cfg.MaxTTL > 0 ∧
            (if cfg.TTL ≠ 0 then cfg.TTL else b.System.DefaultLeaseTTL) >
              min cfg.MaxTTL b.System.MaxLeaseTTL then
          ((b.Login req d.username d.password).resp.getD {}).Warnings ++
            ["Effective TTL of '" ++ b.durationString (min cfg.MaxTTL b.System.MaxLeaseTTL)
              ++ "' exceeded the effective max_ttl of '"
              ++ b.durationString (min cfg.MaxTTL b.System.MaxLeaseTTL)
              ++ "'; TTL value is capped accordingly"]
        else ((b.Login req d.username d.password).resp.getD {}).Warnings) ∧
      (cfg.TTL = Hour → cfg.MaxTTL = 0 →
        resp.Warnings = ((b.Login req d.username d.password).resp.getD {}).Warnings) := by
  rw [pathLogin_accepted b req d cfg hErr hResp hCfg]
  refine ⟨_, _, rfl, rfl, ?_, ?_⟩
  · have hb : (if cfg.TTL ≠ 0 then cfg.TTL else b.System.DefaultLeaseTTL)
        = (if cfg.TTL = 0 then b.System.DefaultLeaseTTL else cfg.TTL) := by
      by_cases h0 : cfg.TTL = 0 <;> simp [h0]
    simp only [loginTTL_fst, hb]
    split_ifs <;> rfl
  · intro _ hm
    simp only [loginTTL_fst]
    simp [hm]

/-- Witness of C12 on `cappedBackend`: no configured TTL, configured maximum
2h, system default 768h, so the one warning of the response is the capping
warning, which names `2h0m0s` twice. -/
theorem pathLogin_capping_warning_witness :
    ∃ resp auth, (cappedBackend.pathLogin {} exampleFields).out = Outcome.ret (some resp) none ∧
      resp.Auth = some auth ∧
      resp.Warnings =
        ["Effective TTL of '2h0m0s' exceeded the effective max_ttl of '2h0m0s'; TTL value is capped accordingly"] :=
  have h := pathLogin_capping_warning cappedBackend {} exampleFields ⟨0, 2 * Hour⟩ (by decide)
    (fun _ h => Option.noConfusion h) rfl
  h.elim fun resp h => h.elim fun auth h =>
    ⟨resp, auth, h.1, h.2.1, h.2.2.1.trans (by decide)⟩

/-- The policies `b`, `a` sort to `a`, `b`. -/
theorem sortStrings_b_a : sortStrings ["b", "a"] = ["a", "b"] := by
  simp [sortStrings, List.insertionSort, List.orderedInsert, String.le_iff_toList_le]
  decide

/-- C15. Grant construction: when the validator accepts and a configuration is
present, the issued grant has the username as display name and as alias name,
is renewable, stores the password under `"password"` in its internal data and
the username under `"username"` in its metadata, and its metadata entry
`"policies"` is its own (sorted) policies joined by commas. -/
theorem pathLogin_grant_fields (b : backend) (req : Request) (d : FieldData) (cfg : ConfigEntry)
    (hErr : (b.Login req d.username d.password).err = none)
    (hResp : ∀ resp, (b.Login req d.username d.password).resp = some resp → b.IsError resp = false)
    (hCfg : b.Config req = (some cfg, none)) :
    ∃ resp auth, (b.pathLogin req d).out = Outcome.ret (some resp) none ∧ resp.Auth = some auth ∧
      auth.DisplayName = d.username ∧
      auth.Alias = some ⟨d.username⟩ ∧
      auth.Renewable = true ∧
      auth.InternalData.lookup "password" = some (Value.str d.password) ∧
      auth.Metadata.lookup "username" = some d.username ∧
      auth.Metadata.lookup "policies" = some (",".intercalate auth.Policies) ∧
      auth.Policies = sortStrings (b.Login req d.username d.password).policies := by
  rw [pathLogin_accepted b req d cfg hErr hResp hCfg]
  refine ⟨_, _, rfl, rfl, rfl, rfl, rfl, ?_, ?_, ?_, rfl⟩
  · simp [List.lookup]
  · simp [List.lookup]
  · have hne : ("policies" == "username") = false := by decide
    simp [List.lookup, hne, stringsJoin]

/-- Witness of C15 on `scenarioBackend`: login of `alice` with password `p`,
the validator returning the policies `b`, `a`; the metadata entry `"policies"`
is `a,b`. -/
theorem pathLogin_grant_fields_witness :
    ∃ resp auth, (scenarioBackend.pathLogin {} exampleFields).out = Outcome.ret (some resp) none ∧
      resp.Auth = some auth ∧ auth.DisplayName = "alice" ∧ auth.Alias = some ⟨"alice"⟩ ∧
      auth.Renewable = true ∧ auth.InternalData.lookup "password" = some (Value.str "p") ∧
      auth.Metadata.lookup "username" = some "alice" ∧
      auth.Metadata.lookup "policies" = some "a,b" ∧
      auth.Policies = ["a", "b"] := by
  obtain ⟨resp, auth, hOut, hA, hDisp, hAlias, hRen, hPw, hUser, hPol, hSorted⟩ :=
    pathLogin_grant_fields scenarioBackend {} exampleFields ⟨Hour, 0⟩ (by decide)
      (fun _ h => Option.noConfusion h) rfl
  have hP : auth.Policies = ["a", "b"] := hSorted.trans sortStrings_b_a
  refine ⟨resp, auth, hOut, hA, hDisp, hAlias, hRen, hPw, hUser, ?_, hP⟩
  rw [hPol, hP]
  decide

/-! ## Alias lookahead -/

/-- C13. For a non-empty username `pathLoginAliasLookahead` returns, with a nil
error, a response whose grant has the alias named after the username; it calls
no collaborator (neither the validator nor the configuration store), leaves the
request as it was, and any other run with the same username, whatever the
backend, the request and the password, returns the same. -/
theorem pathLoginAliasLookahead_nonempty (b : backend) (req : Request) (d : FieldData)
    (hName : d.username ≠ "") :
    (b.pathLoginAliasLookahead req d).out
        = Outcome.ret (some { Auth := some { Alias := some ⟨d.username⟩ } }) none ∧
      (b.pathLoginAliasLookahead req d).calls = [] ∧
      (b.pathLoginAliasLookahead req d).req = req ∧
      ∀ (b2 : backend) (req2 : Request) (d2 : FieldData), d2.username = d.username →
        (b2.pathLoginAliasLookahead req2 d2).out = (b.pathLoginAliasLookahead req d).out := by
  refine ⟨?_, ?_, ?_, ?_⟩
  · simp [backend.pathLoginAliasLookahead, hName]
  · simp [backend.pathLoginAliasLookahead, hName]
  · simp [backend.pathLoginAliasLookahead, hName]
  · intro b2 req2 d2 h
    simp [backend.pathLoginAliasLookahead, hName, h]

/-- Witness of C13: the lookahead for `alice`. -/
theorem pathLoginAliasLookahead_nonempty_witness :
    (scenarioBackend.pathLoginAliasLookahead {} exampleFields).out
        = Outcome.ret (some { Auth := some { Alias := some ⟨"alice"⟩ } }) none ∧
      (scenarioBackend.pathLoginAliasLookahead {} exampleFields).calls = [] :=
  have h := pathLoginAliasLookahead_nonempty scenarioBackend {} exampleFields (by decide)
  ⟨h.1, h.2.1⟩

/-- C14. The handler `pathLoginAliasLookahead` returns an error exactly when the
username is empty, and for the empty username it returns no response and the
error "missing username". -/
theorem pathLoginAliasLookahead_fails_iff (b : backend) (req : Request) (d : FieldData) :
    ((∃ resp err, (b.pathLoginAliasLookahead req d).out = Outcome.ret resp (some err))
        ↔ d.username = "") ∧
      (d.username = "" →
        (b.pathLoginAliasLookahead req d).out
          = Outcome.ret none (some ⟨"missing username"⟩)) := by
  by_cases h : d.username = ""
  · simp [backend.pathLoginAliasLookahead, h]
  · simp [backend.pathLoginAliasLookahead, h]

/-- Witness of C14: the lookahead for the empty username. -/
theorem pathLoginAliasLookahead_fails_iff_witness :
    (scenarioBackend.pathLoginAliasLookahead {} emptyUsernameFields).out
      = Outcome.ret none (some ⟨"missing username"⟩) :=
  (pathLoginAliasLookahead_fails_iff scenarioBackend {} emptyUsernameFields).2 rfl

/-! ## Missing configuration -/

/-- C16. Missing configuration is fatal: when the configuration store returns
no entry and no error, `getConfig` fails with "Okta backend not configured";
when the store returns an error, `getConfig` returns that error. In either
case `pathLogin`, after an accepted validation, and `pathLoginRenew`, after a
passed equivalence check, return no response and that error; no grant is
issued, `LeaseExtend` is not called and the request is as it was. -/
theorem missing_config_is_fatal (b : backend) (req : Request) (d : FieldData) :
    (b.Config req = (none, none) →
        b.getConfig req = (none, some ⟨"Okta backend not configured"⟩)) ∧
      (∀ c err, b.Config req = (c, some err) → b.getConfig req = (none, some err)) ∧
      (∀ err : Error,
        (b.Config req = (none, none) ∧ err = ⟨"Okta backend not configured"⟩) ∨
          (∃ c, b.Config req = (c, some err)) →
        (b.Login req d.username d.password).err = none →
        (∀ resp, (b.Login req d.username d.password).resp = some resp → b.IsError resp = false) →
        b.pathLogin req d
          = ⟨Outcome.ret none (some err), req, [Call.Login d.username d.password, Call.Config]⟩) ∧
      (∀ (err : Error) (prior : Auth) (password : String),
        (b.Config req = (none, none) ∧ err = ⟨"Okta backend not configured"⟩) ∨
          (∃ c, b.Config req = (c, some err)) →
        req.Auth = some prior →
        prior.InternalData.lookup "password" = some (Value.str password) →
        (b.Login req (mapGet prior.Metadata "username") password).policies ≠ [] →
        b.EquivalentPolicies
          (b.Login req (mapGet prior.Metadata "username") password).policies prior.Policies = true →
        b.pathLoginRenew req d
          = ⟨Outcome.ret none (some err), req,
              [Call.Login (mapGet prior.Metadata "username") password,
                Call.EquivalentPolicies
                  (b.Login req (mapGet prior.Metadata "username") password).policies
                  prior.Policies,
                Call.Config]⟩) := by
  have hget : ∀ err : Error,
      (b.Config req = (none, none) ∧ err = ⟨"Okta backend not configured"⟩) ∨
        (∃ c, b.Config req = (c, some err)) →
      b.getConfig req = (none, some err) := by
    intro err h
    rcases h with ⟨h, rfl⟩ | ⟨c, h⟩
    · simp [backend.getConfig, h]
    · simp [backend.getConfig, h]
  refine ⟨fun h => hget _ (Or.inl ⟨h, rfl⟩), fun c err h => hget err (Or.inr ⟨c, h⟩), ?_, ?_⟩
  · intro err hc hErr hResp
    have hle : (match (b.Login req d.username d.password).resp with
        | some resp => b.IsError resp
        | none => false) = false := by
      cases h : (b.Login req d.username d.password).resp with
      | none => rfl
      | some resp => simpa using hResp resp h
    unfold backend.pathLogin
    simp only [hErr, hle, hget err hc]
    simp
  · intro err prior password hc hAuth hPw hNonempty hEquiv
    have hlen :
        ¬ (b.Login req (mapGet prior.Metadata "username") password).policies.length = 0 := by
      simpa [List.length_eq_zero] using hNonempty
    unfold backend.pathLoginRenew
    simp only [hAuth, hPw, hlen, hEquiv, hget err hc]
    simp

/-- Witness of C16 on `unconfiguredBackend`, whose configuration store holds no
entry: the login and the renewal both fail with "Okta backend not
configured". -/
theorem missing_config_is_fatal_witness :
    unconfiguredBackend.getConfig {} = (none, some ⟨"Okta backend not configured"⟩) ∧
      unconfiguredBackend.pathLogin {} exampleFields
        = ⟨Outcome.ret none (some ⟨"Okta backend not configured"⟩), {},
            [Call.Login "alice" "p", Call.Config]⟩ ∧
      unconfiguredBackend.pathLoginRenew exampleRenewRequest exampleFields
        = ⟨Outcome.ret none (some ⟨"Okta backend not configured"⟩), exampleRenewRequest,
            [Call.Login "alice" "p", Call.EquivalentPolicies ["b", "a"] ["a", "b"],
              Call.Config]⟩ :=
  ⟨(missing_config_is_fatal unconfiguredBackend {} exampleFields).1 rfl,
    (missing_config_is_fatal unconfiguredBackend {} exampleFields).2.2.1 _ (Or.inl ⟨rfl, rfl⟩)
      (by decide) (fun _ h => Option.noConfusion h),
    (missing_config_is_fatal unconfiguredBackend exampleRenewRequest exampleFields).2.2.2 _
      { Policies := ["a", "b"]
        Metadata := [("username", "alice"), ("policies", "a,b")]
        InternalData := [("password", Value.str "p")]
        DisplayName := "alice"
        TTL := Hour
        Renewable := true
        Alias := some ⟨"alice"⟩
        GroupAliases := [⟨"team-x"⟩] }
      "p" (Or.inl ⟨rfl, rfl⟩) rfl (by decide) (by decide) (by decide)⟩

/-! ## Login: the empty username and repeated policies -/

/-- Whatever the fields, the first collaborator call of `pathLogin` is the
validator with the username and the password of the fields. -/
theorem pathLogin_first_call (b : backend) (req : Request) (d : FieldData) :
    (b.pathLogin req d).calls.head? = some (Call.Login d.username d.password) := by
  unfold backend.pathLogin
  simp only []
  repeat' split
  all_goals simp

/-- C17, as the code has it. The empty username is kept out by the path
pattern, not by the handler: the pattern `login/(?P<username>.+)` matches only
paths whose username is non-empty, and does not match `login/`. The handler
`pathLogin` has no username test: whatever the username, its first call is the
validator with that username and the password, and when the validator accepts
and a configuration is present it has called the validator and the
configuration store and returns, with a nil error, a grant whose display name
and alias name are that username. -/
theorem pathLogin_username_unchecked (b : backend) (req : Request) (d : FieldData) :
    (∀ path username, loginPatternUsername path = some username → username ≠ "") ∧
      loginPatternUsername "login/" = none ∧
      (b.pathLogin req d).calls.head? = some (Call.Login d.username d.password) ∧
      (∀ cfg, (b.Login req d.username d.password).err = none →
        (∀ resp, (b.Login req d.username d.password).resp = some resp → b.IsError resp = false) →
        b.Config req = (some cfg, none) →
        (b.pathLogin req d).calls = [Call.Login d.username d.password, Call.Config] ∧
        ∃ resp auth, (b.pathLogin req d).out = Outcome.ret (some resp) none ∧
          resp.Auth = some auth ∧ auth.DisplayName = d.username ∧
          auth.Alias = some ⟨d.username⟩) := by
  refine ⟨?_, by decide, pathLogin_first_call b req d, ?_⟩
  · intro path username h
    unfold loginPatternUsername at h
    split at h
    · split at h
      · rename_i rest _ hrest
        have hne : rest ≠ [] := by
          intro h0
          simp [h0] at hrest
        injection h with h
        intro hu
        rw [hu] at h
        exact hne (congrArg String.data h)
      · exact absurd h (by simp)
    · exact absurd h (by simp)
  · intro cfg hErr hResp hCfg
    rw [pathLogin_accepted b req d cfg hErr hResp hCfg]
    exact ⟨rfl, _, _, rfl, rfl, rfl, rfl⟩

/-- Witness of the amended C17: the path `login/alice` matches with the
username `alice`, and the login of `alice` on `scenarioBackend` calls the
validator and the configuration store and returns a grant for `alice`. -/
theorem pathLogin_username_unchecked_witness :
    loginPatternUsername "login/alice" = some "alice" ∧ "alice" ≠ "" ∧
      (scenarioBackend.pathLogin {} exampleFields).calls
        = [Call.Login "alice" "p", Call.Config] ∧
      ∃ resp auth, (scenarioBackend.pathLogin {} exampleFields).out
          = Outcome.ret (some resp) none ∧
        resp.Auth = some auth ∧ auth.DisplayName = "alice" ∧ auth.Alias = some ⟨"alice"⟩ :=
  have h := pathLogin_username_unchecked scenarioBackend {} exampleFields
  have h4 := h.2.2.2 ⟨Hour, 0⟩ (by decide) (fun _ h => Option.noConfusion h) rfl
  ⟨by decide, h.1 "login/alice" "alice" (by decide), h4.1, h4.2⟩

/-- C17 fails as stated: called with the empty username and the password `p`
on `scenarioBackend`, `pathLogin` calls the validator with `""` and `p`, reads
the configuration and returns a response carrying a grant whose display name
and alias name are empty, with a nil error. -/
theorem pathLogin_empty_username_reaches_validator :
    (scenarioBackend.pathLogin {} emptyUsernameFields).calls
        = [Call.Login "" "p", Call.Config] ∧
      ∃ resp auth, (scenarioBackend.pathLogin {} emptyUsernameFields).out
          = Outcome.ret (some resp) none ∧
        resp.Auth = some auth ∧ auth.DisplayName = "" ∧ auth.Alias = some ⟨""⟩ := by
  rw [pathLogin_accepted scenarioBackend {} emptyUsernameFields ⟨Hour, 0⟩ (by decide)
    (fun _ h => Option.noConfusion h) rfl]
  exact ⟨rfl, _, _, rfl, rfl, rfl, rfl⟩

/-- C18, as the code has it. When the validator accepts and a configuration is
present, the issued grant holds every policy name exactly as many times as the
validator's list does; it is free of repetitions exactly when the validator's
list is. -/
theorem pathLogin_policies_multiplicity (b : backend) (req : Request) (d : FieldData)
    (cfg : ConfigEntry)
    (hErr : (b.Login req d.username d.password).err = none)
    (hResp : ∀ resp, (b.Login req d.username d.password).resp = some resp → b.IsError resp = false)
    (hCfg : b.Config req = (some cfg, none)) :
    ∃ resp auth, (b.pathLogin req d).out = Outcome.ret (some resp) none ∧ resp.Auth = some auth ∧
      (∀ p, auth.Policies.count p = (b.Login req d.username d.password).policies.count p) ∧
      (auth.Policies.Nodup ↔ (b.Login req d.username d.password).policies.Nodup) := by
  rw [pathLogin_accepted b req d cfg hErr hResp hCfg]
  exact ⟨_, _, rfl, rfl, fun p => (List.perm_insertionSort _ _).count_eq p,
    (List.perm_insertionSort _ _).nodup_iff⟩

/-- Witness of the amended C18 on `scenarioBackend`, whose validator returns
`b`, `a`: the issued policies have no repetition. -/
theorem pathLogin_policies_multiplicity_witness :
    ∃ resp auth, (scenarioBackend.pathLogin {} exampleFields).out = Outcome.ret (some resp) none ∧
      resp.Auth = some auth ∧ auth.Policies.Nodup :=
  have h := pathLogin_policies_multiplicity scenarioBackend {} exampleFields ⟨Hour, 0⟩ (by decide)
    (fun _ h => Option.noConfusion h) rfl
  h.elim fun resp h => h.elim fun auth h => ⟨resp, auth, h.1, h.2.1, h.2.2.2.mpr (by decide)⟩

/-- C18 fails as stated: on `duplicateBackend` the validator returns `a`, `a`,
the login succeeds and the issued grant holds the policy `a` twice. -/
theorem pathLogin_policies_repeated :
    (duplicateBackend.Login {} "alice" "p").policies = ["a", "a"] ∧
      ∃ resp auth, (duplicateBackend.pathLogin {} exampleFields).out
          = Outcome.ret (some resp) none ∧
        resp.Auth = some auth ∧ auth.Policies = ["a", "a"] ∧ ¬ auth.Policies.Nodup := by
  have hs : sortStrings ["a", "a"] = ["a", "a"] := by
    simp [sortStrings, List.insertionSort, List.orderedInsert]
  refine ⟨rfl, ?_⟩
  rw [pathLogin_accepted duplicateBackend {} exampleFields ⟨Hour, 0⟩ (by decide)
    (fun _ h => Option.noConfusion h) rfl]
  refine ⟨_, _, rfl, rfl, hs, ?_⟩
  show ¬ (sortStrings ["a", "a"]).Nodup
  rw [hs]
  decide

/-! ## Login and renewal together -/

/-- Once the credentials are recovered, the first collaborator call of
`pathLoginRenew` is the validator with those credentials. -/
theorem pathLoginRenew_first_call (b : backend) (req : Request) (d : FieldData)
    (prior : Auth) (password : String)
    (hAuth : req.Auth = some prior)
    (hPw : prior.InternalData.lookup "password" = some (Value.str password)) :
    (b.pathLoginRenew req d).calls.head?
      = some (Call.Login (mapGet prior.Metadata "username") password) := by
  unfold backend.pathLoginRenew
  simp only [hAuth, hPw]
  repeat' split
  all_goals simp

/-- C19. Login-to-renew credential round trip: the grant of an accepted login
stores the username under `"username"` in its metadata and the password, as a
string, under `"password"` in its internal data; a renewal of that grant, on
any backend, recovers them (it does not stop at the type assertion) and its
first call is the validator with the username and password of the login. -/
theorem pathLogin_then_renew_credentials (b : backend) (req : Request) (d : FieldData)
    (cfg : ConfigEntry)
    (hErr : (b.Login req d.username d.password).err = none)
    (hResp : ∀ resp, (b.Login req d.username d.password).resp = some resp → b.IsError resp = false)
    (hCfg : b.Config req = (some cfg, none)) :
    ∃ resp auth, (b.pathLogin req d).out = Outcome.ret (some resp) none ∧ resp.Auth = some auth ∧
      auth.Metadata.lookup "username" = some d.username ∧
      auth.InternalData.lookup "password" = some (Value.str d.password) ∧
      ∀ (b2 : backend) (req2 : Request) (d2 : FieldData), req2.Auth = some auth →
        (b2.pathLoginRenew req2 d2).calls.head? = some (Call.Login d.username d.password) ∧
        b2.pathLoginRenew req2 d2 ≠ ⟨Outcome.panic, req2, []⟩ := by
  rw [pathLogin_accepted b req d cfg hErr hResp hCfg]
  refine ⟨_, _, rfl, rfl, ?_, ?_, ?_⟩
  · simp [List.lookup]
  · simp [List.lookup]
  · intro b2 req2 d2 h2
    have hPw : ({ Policies := sortStrings (b.Login req d.username d.password).policies
                  Metadata := [("username", d.username),
                    ("policies",
                      stringsJoin (sortStrings (b.Login req d.username d.password).policies) ",")]
                  InternalData := [("password", Value.str d.password)]
                  DisplayName := d.username
                  TTL :=
                    if cfg.MaxTTL > 0 ∧
                        (if cfg.TTL = 0 then b.System.DefaultLeaseTTL else cfg.TTL) >
                          min cfg.MaxTTL b.System.MaxLeaseTTL then
                      min cfg.MaxTTL b.System.MaxLeaseTTL
                    else if cfg.TTL = 0 then b.System.DefaultLeaseTTL else cfg.TTL
                  Renewable := true
                  Alias := some ⟨d.username⟩
                  GroupAliases :=
                    ((b.Login req d.username d.password).groupNames.filter (fun g => g ≠ "")).map
                      Alias.mk } : Auth).InternalData.lookup "password"
        = some (Value.str d.password) := by
      simp [List.lookup]
    have hfirst := pathLoginRenew_first_call b2 req2 d2 _ d.password h2 hPw
    have hu : mapGet [("username", d.username),
        ("policies", stringsJoin (sortStrings (b.Login req d.username d.password).policies) ",")]
        "username" = d.username := by
      simp [mapGet, List.lookup]
    simp only [hu] at hfirst
    refine ⟨hfirst, ?_⟩
    intro hrun
    rw [hrun] at hfirst
    simp at hfirst

/-- Witness of C19: the grant that `scenarioBackend` issues to `alice` with
password `p`, renewed on `renewingBackend`, makes the validator be called
with `alice` and `p`. -/
theorem pathLogin_then_renew_credentials_witness :
    ∃ resp auth, (scenarioBackend.pathLogin {} exampleFields).out = Outcome.ret (some resp) none ∧
      resp.Auth = some auth ∧
      (renewingBackend.pathLoginRenew { Auth := some auth } exampleFields).calls.head?
        = some (Call.Login "alice" "p") :=
  have h := pathLogin_then_renew_credentials scenarioBackend {} exampleFields ⟨Hour, 0⟩ (by decide)
    (fun _ h => Option.noConfusion h) rfl
  h.elim fun resp h => h.elim fun auth h =>
    ⟨resp, auth, h.1, h.2.1, (h.2.2.2.2 renewingBackend { Auth := some auth } exampleFields rfl).1⟩

/-- Two lists of strings that are permutations of each other sort to the same
list. -/
theorem sortStrings_eq_of_perm {xs ys : List String} (h : List.Perm xs ys) :
    sortStrings xs = sortStrings ys := by
  unfold sortStrings
  apply List.eq_of_perm_of_sorted (r := fun x y : String => x ≤ y)
  · exact (List.perm_insertionSort _ xs).trans (h.trans (List.perm_insertionSort _ ys).symm)
  · exact List.sorted_insertionSort _ _
  · exact List.sorted_insertionSort _ _

/-- C20. Order-insensitivity of login: take two backends with the same system
view and the same configuration whose validators both accept the credentials
and return the same group names and policy lists that are permutations of each
other. For the same request, username and password, `pathLogin` returns on both
a response carrying the same grant: same policies, same metadata (hence the
same `"policies"` string), same TTL, same group aliases. -/
theorem pathLogin_order_insensitive (b b2 : backend) (req : Request) (d : FieldData)
    (cfg : ConfigEntry)
    (hErr : (b.Login req d.username d.password).err = none)
    (hResp : ∀ resp, (b.Login req d.username d.password).resp = some resp → b.IsError resp = false)
    (hCfg : b.Config req = (some cfg, none))
    (hErr2 : (b2.Login req d.username d.password).err = none)
    (hResp2 : ∀ resp, (b2.Login req d.username d.password).resp = some resp →
      b2.IsError resp = false)
    (hCfg2 : b2.Config req = (some cfg, none))
    (hSys : b2.System = b.System)
    (hGroups : (b2.Login req d.username d.password).groupNames
      = (b.Login req d.username d.password).groupNames)
    (hPerm : List.Perm (b.Login req d.username d.password).policies
      (b2.Login req d.username d.password).policies) :
    ∃ resp resp2 auth,
      (b.pathLogin req d).out = Outcome.ret (some resp) none ∧
      (b2.pathLogin req d).out = Outcome.ret (some resp2) none ∧
      resp.Auth = some auth ∧ resp2.Auth = some auth ∧
      auth.Policies = sortStrings (b.Login req d.username d.password).policies ∧
      auth.Policies = sortStrings (b2.Login req d.username d.password).policies := by
  rw [pathLogin_accepted b req d cfg hErr hResp hCfg,
    pathLogin_accepted b2 req d cfg hErr2 hResp2 hCfg2]
  refine ⟨_, _, _, rfl, rfl, rfl, ?_, rfl, sortStrings_eq_of_perm hPerm⟩
  simp only [hSys, hGroups, sortStrings_eq_of_perm hPerm]

/-- Witness of C20: `scenarioBackend` (validator's policies `b`, `a`) and
`permutedBackend` (validator's policies `a`, `b`) issue the same grant. -/
theorem pathLogin_order_insensitive_witness :
    ∃ resp resp2 auth,
      (scenarioBackend.pathLogin {} exampleFields).out = Outcome.ret (some resp) none ∧
      (permutedBackend.pathLogin {} exampleFields).out = Outcome.ret (some resp2) none ∧
      resp.Auth = some auth ∧ resp2.Auth = some auth :=
  have h := pathLogin_order_insensitive scenarioBackend permutedBackend {} exampleFields ⟨Hour, 0⟩
    (by decide) (fun _ h => Option.noConfusion h) rfl
    (by decide) (fun _ h => Option.noConfusion h) rfl rfl rfl
    (List.Perm.swap "a" "b" [])
  h.elim fun resp h => h.elim fun resp2 h => h.elim fun auth h =>
    ⟨resp, resp2, auth, h.1, h.2.1, h.2.2.1, h.2.2.2.1⟩

end Okta
